import Mathlib

/-!
Verification development for the SentimentSage data-preparation core.

This file gives a shallow embedding of the text-cleaning pipeline of
src/mca_ai/preprocess.py and the dataset-assembly pipeline of
src/mca_ai/data_loader.py, and proves or refutes the frozen claims about
them.

Conventions of the embedding:
- Python strings are Lean String values; the per-character work is done on
  String.data, a List Char.
- The regular expressions of preprocess.py are tiny and fixed, so each
  re.sub call is embedded as a direct left-to-right scanner over the
  character list, written with a fuel argument equal to the list length so
  that every definition is structural and kernel-reducible.
- Effects of third-party libraries, namely the datasets loaders and the
  process-global random module, are passed in explicitly: loader outcomes
  as Except values in an environment record, the random module as a stream
  of draws with a position.
-/

/-- Whitespace per Python regex class backslash-s and str.strip for str
inputs: ASCII whitespace, the C1 separators, NEL, NBSP and the Unicode
space characters. Stated on the code point. -/
def pyWS (c : Char) : Bool :=
  (9 ≤ c.toNat && c.toNat ≤ 13) || c.toNat == 32 || (28 ≤ c.toNat && c.toNat ≤ 31) ||
  c.toNat == 133 || c.toNat == 160 || c.toNat == 5760 ||
  (8192 ≤ c.toNat && c.toNat ≤ 8202) || c.toNat == 8232 || c.toNat == 8233 ||
  c.toNat == 8239 || c.toNat == 8287 || c.toNat == 12288

/-- Character class of the regex used in the variable holding the pattern
for characters that survive step 4 of clean_text, the complement of
the class written as caret a-zA-Z0-9 backslash-s dot comma bang question
apostrophe hyphen in preprocess.py line 8: kept characters are ASCII
letters, digits, whitespace, and the six listed punctuation marks. -/
def keepChar (c : Char) : Bool :=
  (65 ≤ c.toNat && c.toNat ≤ 90) || (97 ≤ c.toNat && c.toNat ≤ 122) ||
  (48 ≤ c.toNat && c.toNat ≤ 57) || pyWS c ||
  c.toNat == 46 || c.toNat == 44 || c.toNat == 33 || c.toNat == 63 ||
  c.toNat == 39 || c.toNat == 45

/-- ASCII lowercasing of one character, the effect of str.lower on the
characters that can reach the final step of clean_text (by then every
character is ASCII, see the invariant lemmas below). -/
def lowerChar (c : Char) : Char :=
  if 65 ≤ c.toNat && c.toNat ≤ 90 then Char.ofNat (c.toNat + 32) else c

/-- Entity table for html.unescape, restricted to the entities this
development touches; longest match first, with-semicolon forms before the
legacy forms without a trailing semicolon, as in the stdlib. The stdlib
table is far larger, but only the ampersand character can start a match,
which is all the proofs rely on. -/
def entityTable : List (List Char × Char) :=
  [("amp;".data, Char.ofNat 38), ("lt;".data, Char.ofNat 60), ("gt;".data, Char.ofNat 62),
   ("quot;".data, Char.ofNat 34), ("apos;".data, Char.ofNat 39), ("nbsp;".data, Char.ofNat 160),
   ("amp".data, Char.ofNat 38), ("lt".data, Char.ofNat 60), ("gt".data, Char.ofNat 62),
   ("quot".data, Char.ofNat 34)]

/-- Try to read one entity name right after an ampersand; returns the
decoded character and the number of characters consumed. -/
def tryEntity (l : List Char) : Option (Char × Nat) :=
  match entityTable.find? (fun e => e.1.isPrefixOf l) with
  | some e => some (e.2, e.1.length)
  | none => none

/-- Scanner for html.unescape (step 1 of clean_text): decode an entity at
each ampersand, leave everything else unchanged; replacements are not
rescanned. Fuel-structural; fuel equal to the list length suffices. -/
def unescapeGo : Nat → List Char → List Char
  | 0, l => l
  | _ + 1, [] => []
  | f + 1, c :: rest =>
    if c.toNat == 38 then
      match tryEntity rest with
      | some p => p.1 :: unescapeGo f (rest.drop p.2)
      | none => c :: unescapeGo f rest
    else c :: unescapeGo f rest

/-- Model of html.unescape on character lists. -/
def html_unescape (l : List Char) : List Char := unescapeGo l.length l

/-- Scanner for the HTML-tag regex (step 2 of clean_text): an opening
angle bracket, one or more non-closing-bracket characters, a closing
angle bracket; each match is replaced by one space, matching re.sub of
the pattern at preprocess.py line 6. -/
def tagGo : Nat → List Char → List Char
  | 0, l => l
  | _ + 1, [] => []
  | f + 1, c :: rest =>
    if c.toNat == 60 then
      let body := rest.takeWhile (fun d => !(d.toNat == 62))
      if 0 < body.length && body.length < rest.length then
        Char.ofNat 32 :: tagGo f (rest.drop (body.length + 1))
      else c :: tagGo f rest
    else c :: tagGo f rest

/-- Model of the tag-stripping substitution on character lists. -/
def tagSub (l : List Char) : List Char := tagGo l.length l

/-- Does a URL alternative match at this position: the literal key
followed by at least one non-whitespace character. -/
def urlMatchAt (key : List Char) (l : List Char) : Bool :=
  key.isPrefixOf l &&
    (match l.drop key.length with
     | d :: _ => !pyWS d
     | [] => false)

/-- Scanner for the URL regex (step 3 of clean_text): the literal
lowercase h-t-t-p followed by one or more non-whitespace characters, or
the literal lowercase w-w-w-dot followed by one or more non-whitespace
characters; greedy, leftmost, each match replaced by one space, matching
re.sub of the pattern at preprocess.py line 7. The pattern is
case-sensitive, which matters for the idempotence claim. -/
def urlGo : Nat → List Char → List Char
  | 0, l => l
  | _ + 1, [] => []
  | f + 1, c :: rest =>
    if urlMatchAt ("http".data) (c :: rest) then
      Char.ofNat 32 :: urlGo f (((c :: rest).drop 4).dropWhile (fun d => !pyWS d))
    else if urlMatchAt ("www.".data) (c :: rest) then
      Char.ofNat 32 :: urlGo f (((c :: rest).drop 4).dropWhile (fun d => !pyWS d))
    else c :: urlGo f rest

/-- Model of the URL-stripping substitution on character lists. -/
def urlSub (l : List Char) : List Char := urlGo l.length l

/-- Step 4 of clean_text: every character outside the kept class is
replaced by one space; the substitution is per character because the
regex class matches exactly one character. -/
def nonasciiSub (l : List Char) : List Char :=
  l.map (fun c => if keepChar c then c else Char.ofNat 32)

/-- Scanner for the whitespace-collapsing regex (step 5 of clean_text):
every maximal run of whitespace is replaced by a single space. -/
def collapseGo : Nat → List Char → List Char
  | 0, l => l
  | _ + 1, [] => []
  | f + 1, c :: rest =>
    if pyWS c then Char.ofNat 32 :: collapseGo f (rest.dropWhile pyWS)
    else c :: collapseGo f rest

/-- Model of the whitespace-collapsing substitution on character lists. -/
def collapseWS (l : List Char) : List Char := collapseGo l.length l

/-- Remove trailing whitespace, recursively from the right. -/
def dropTrailWS : List Char → List Char
  | [] => []
  | c :: t =>
    match dropTrailWS t with
    | [] => if pyWS c then [] else [c]
    | b :: r => c :: b :: r

/-- Model of str.strip (step 6 of clean_text): drop leading and trailing
whitespace. -/
def stripWS (l : List Char) : List Char := dropTrailWS (l.dropWhile pyWS)

/-- Model of str.lower (step 7 of clean_text) on character lists. -/
def lowerAll (l : List Char) : List Char := l.map lowerChar

/-- The full cleaning pipeline of clean_text (preprocess.py lines 12-20)
on character lists, applied in the fixed source order: unescape, strip
tags, strip URLs, drop disallowed characters, collapse whitespace, strip,
lowercase. -/
def cleanChars (l : List Char) : List Char :=
  lowerAll (stripWS (collapseWS (nonasciiSub (urlSub (tagSub (html_unescape l))))))

/-- clean_text on the string path (the isinstance check passed). -/
def clean_text (s : String) : String := String.mk (cleanChars s.data)

/-- A Python value as far as clean_text observes it: a string or one of
the non-string shapes the spec mentions (None, numbers, booleans). -/
inductive PyVal where
  | vStr : String → PyVal
  | vInt : Int → PyVal
  | vBool : Bool → PyVal
  | vNone : PyVal
deriving DecidableEq

/-- clean_text as called on an arbitrary value: the isinstance guard at
preprocess.py line 13 returns the empty string on every non-string. -/
def clean_text_py : PyVal → String
  | PyVal.vStr s => clean_text s
  | _ => ""

/-- batch_clean_text (preprocess.py lines 23-24): map clean_text over an
ordered list of inputs. -/
def batch_clean_text (ts : List String) : List String := ts.map clean_text

/-!
Embedding of src/mca_ai/data_loader.py.

A record is an association list of column name to value, as a Python dict
row. A DSDict is the shape handed around inside load_dataset_any: a train
split and an optional test split. A FinalDS is the return shape after the
ensure-splits step, with both splits present.

The remote loaders, the local file loaders and os.path.exists are outside
the repository; their outcomes are supplied through an environment
record, one field per call site. The process-global random module is
modelled as a stream of draws plus a position; random.choice consumes one
draw and indexes with it modulo the list length.
-/

/-- One dataset row: Python dict from column name to value. -/
abbrev Record : Type := List (String × PyVal)

/-- Python dict.get with a default. -/
def recGet (r : Record) (k : String) (dflt : PyVal) : PyVal :=
  match r.find? (fun p => p.1 == k) with
  | some p => p.2
  | none => dflt

/-- Python dict update of one key, as performed by Dataset.map merging the
returned column into the row: replace the value in place if the key
exists, append otherwise. -/
def recSet (r : Record) (k : String) (v : PyVal) : Record :=
  if (r.find? (fun p => p.1 == k)).isSome then
    r.map (fun p => if p.1 == k then (k, v) else p)
  else r ++ [(k, v)]

/-- Dataset dictionary as load_dataset_any handles it: a train split and
an optional test split. -/
structure DSDict where
  train : List Record
  test : Option (List Record)
deriving DecidableEq

/-- Dataset after the ensure-splits step: both splits present. -/
structure FinalDS where
  train : List Record
  test : List Record
deriving DecidableEq

/-- Python exception shapes raised by data_loader.py. -/
inductive PyError where
  | valueError : String → PyError
  | runtimeError : String → PyError
deriving DecidableEq

/-- The process-global random module state: a stream of draws and the
current position in it. -/
structure RNG where
  draws : Nat → Nat
  pos : Nat

/-- random.choice on a list of strings: consume one draw, index modulo
the length. -/
def pyChoice (xs : List String) (st : RNG) : String × RNG :=
  (xs.getD (st.draws st.pos % xs.length) (""), RNG.mk st.draws (st.pos + 1))

/-- Modelled from the spec: the deterministic pseudorandom shuffle keyed
by seed of the Split Policy in section 4.2, standing in for the
train_test_split shuffle of the external datasets library. Embedded as a
rotation by seed modulo the length, which is a permutation and is
deterministic in the seed, the two properties the claims rely on. -/
def hfShuffle (seed : Nat) (l : List Record) : List Record :=
  let m := if l.length == 0 then 0 else seed % l.length
  l.drop m ++ l.take m

/-- Round ratio times n to the nearest integer, written out on the
numerator and denominator so the kernel can evaluate it: with q equal
num over den, round(q times n) equals the floor of
(2 num n + den) over (2 den). -/
def ratioCount (q : ℚ) (n : Nat) : Nat :=
  (Int.fdiv (2 * q.num * (n : Int) + (q.den : Int)) (2 * (q.den : Int))).toNat

/-- Modelled from the spec: train_test_split of the external datasets
library per the Split Policy of section 4.2: the evaluation partition
size is round(ratio times total), membership comes from the seeded
shuffle, the remainder is the training partition. Returns (train, test). -/
def hfTrainTestSplit (l : List Record) (ratio : ℚ) (seed : Nat) : List Record × List Record :=
  let sh := hfShuffle seed l
  let k := ratioCount ratio l.length
  (sh.drop k, sh.take k)

/-- Configuration object fields read by data_loader.py. -/
structure DataCfg where
  source : String
  hf_dataset : String
  split_ratio : List ℚ
  text_field : String
  fast_limit : Option Nat
  map_num_proc : Nat

/-- Paths configuration. -/
structure PathsCfg where
  data_dir : String

/-- The app_cfg object. -/
structure AppCfg where
  data : DataCfg
  paths : PathsCfg
  seed : Nat

/-- Outcomes of the four remote strategies of load_dataset_with_fallback,
one field per external call: plain load, forced redownload after the
cache clear, load ignoring verification, and the two individual split
loads of strategy four. -/
structure RemoteEnv where
  normal : Except String DSDict
  forceRedownload : Except String DSDict
  ignoreVerif : Except String DSDict
  trainSplit : Except String (List Record)
  testSplit : Except String (List Record)

/-- Environment of external outcomes for load_dataset_any: file
existence, the three local loaders (each returning the train rows of the
loaded file), and the remote strategy outcomes. -/
structure LoaderEnv where
  fileExists : String → Bool
  loadJson : List Record
  loadParquet : List Record
  loadCsv : List Record
  remote : RemoteEnv

/-- The sentiment pool of create_synthetic_dataset. -/
def sentiments : List String := ["positive", "negative", "neutral"]

/-- Positive sample texts of create_synthetic_dataset, verbatim. -/
def positive_texts : List String :=
  ["I love this new policy! It\x27s exactly what we need for our community.",
   "This is a fantastic initiative that will benefit everyone.",
   "Great work on this proposal. I fully support it.",
   "Excellent idea! This will make a real difference.",
   "I\x27m very happy with this decision. Thank you for listening.",
   "This is wonderful news for our city.",
   "I strongly support this measure. It\x27s well thought out.",
   "Perfect! This addresses all my concerns.",
   "Outstanding work! This is exactly what we needed.",
   "I\x27m thrilled about this development."]

/-- Negative sample texts of create_synthetic_dataset, verbatim. -/
def negative_texts : List String :=
  ["This policy is terrible and will hurt our community.",
   "I strongly oppose this initiative. It\x27s a bad idea.",
   "This proposal is poorly thought out and will cause problems.",
   "I\x27m very disappointed with this decision.",
   "This is a waste of taxpayer money.",
   "I cannot support this measure. It\x27s harmful.",
   "This is a terrible idea that will backfire.",
   "I\x27m outraged by this proposal.",
   "This will make things worse, not better.",
   "I strongly disagree with this approach."]

/-- Neutral sample texts of create_synthetic_dataset, verbatim. -/
def neutral_texts : List String :=
  ["I have mixed feelings about this policy.",
   "This seems like a reasonable approach, but I have some concerns.",
   "I need more information before I can form an opinion.",
   "This is an interesting proposal that deserves consideration.",
   "I see both pros and cons to this initiative.",
   "This is a complex issue that requires careful analysis.",
   "I\x27m not sure if this is the right solution.",
   "This could work, but there might be better alternatives.",
   "I have questions about the implementation details.",
   "This is worth discussing further."]

/-- The generation loop of create_synthetic_dataset: for each example in
order, one random.choice over the three sentiments then one
random.choice over the matching text pool, with the comment-number
suffix appended; every iteration consumes exactly two draws, so the
element at index i reads draws at positions pos plus 2i and pos plus
2i plus 1. Returns the (text, label) pairs in generation order. -/
def synthPairs (draws : Nat → Nat) : Nat → Nat → Nat → List (String × String)
  | _, 0, _ => []
  | i, m + 1, pos =>
    let s := sentiments.getD (draws pos % 3) ("")
    let pool := if s == "positive" then positive_texts
      else if s == "negative" then negative_texts
      else neutral_texts
    let t := pool.getD (draws (pos + 1) % 10) ("")
    (t ++ " This is comment #" ++ toString (i + 1) ++ " about the proposed policy.", s)
      :: synthPairs draws (i + 1) m (pos + 2)

/-- Dataset.from_dict of create_synthetic_dataset: rows with the text,
label and id columns, ids counting from the given start. -/
def synthRows : Nat → List (String × String) → List Record
  | _, [] => []
  | i, p :: t =>
    [("text", PyVal.vStr p.1), ("label", PyVal.vStr p.2), ("id", PyVal.vInt (Int.ofNat i))]
      :: synthRows (i + 1) t

/-- create_synthetic_dataset (data_loader.py lines 74-149): generate
num_examples rows from the global random stream, then train_test_split
with test_size 0.2 and seed 42. Each iteration consumes two draws, so
the returned stream position has advanced by twice the example count. -/
def create_synthetic_dataset (n : Nat) (st : RNG) : DSDict × RNG :=
  let rows := synthRows 0 (synthPairs st.draws 0 n st.pos)
  let p := hfTrainTestSplit rows (mkRat 1 5) 42
  (DSDict.mk p.1 (some p.2), RNG.mk st.draws (st.pos + 2 * n))

/-- Strategy four of load_dataset_with_fallback (data_loader.py lines
53-67): load the train split; if the test split load fails, carve a test
split out of train with the configured ratio and seed. -/
def loadSplitsIndividually (cfg : AppCfg) (env : RemoteEnv) : Except String DSDict :=
  match env.trainSplit with
  | Except.ok tr =>
    match env.testSplit with
    | Except.ok te => Except.ok (DSDict.mk tr (some te))
    | Except.error _ =>
      let p := hfTrainTestSplit tr (cfg.data.split_ratio.getD 1 0) cfg.seed
      Except.ok (DSDict.mk p.1 (some p.2))
  | Except.error e => Except.error e

/-- load_dataset_with_fallback (data_loader.py lines 25-71): the four
strategies in source order as nested try/except blocks; the final raise
carries the dataset name. The cache clear of strategy two only touches
the on-disk cache and swallows its own errors, so it has no observable
effect in this model. -/
def load_dataset_with_fallback (cfg : AppCfg) (env : RemoteEnv) : Except PyError DSDict :=
  match env.normal with
  | Except.ok d => Except.ok d
  | Except.error _ =>
    match env.forceRedownload with
    | Except.ok d => Except.ok d
    | Except.error _ =>
      match env.ignoreVerif with
      | Except.ok d => Except.ok d
      | Except.error _ =>
        match loadSplitsIndividually cfg env with
        | Except.ok d => Except.ok d
        | Except.error _ =>
          Except.error (PyError.runtimeError ("All strategies failed to load dataset: " ++ cfg.data.hf_dataset))

/-- Specification-side view of the remote resilience chain, following the
spec words of section 4.2: an ordered list of strategy attempts, the
first success wins, and exhaustion is a fatal error naming the source. -/
def fallbackSpec (cfg : AppCfg) (env : RemoteEnv) : Except PyError DSDict :=
  let attempts := [env.normal, env.forceRedownload, env.ignoreVerif, loadSplitsIndividually cfg env]
  match attempts.find? (fun r => match r with | Except.ok _ => true | _ => false) with
  | some (Except.ok d) => Except.ok d
  | _ => Except.error (PyError.runtimeError ("All strategies failed to load dataset: " ++ cfg.data.hf_dataset))

/-- Local file paths used by load_dataset_any. -/
def jsonPath (cfg : AppCfg) : String := cfg.paths.data_dir ++ "/train.jsonl"

/-- Parquet path used by load_dataset_any. -/
def parquetPath (cfg : AppCfg) : String := cfg.paths.data_dir ++ "/train.parquet"

/-- CSV path used by load_dataset_any. -/
def csvPath (cfg : AppCfg) : String := cfg.paths.data_dir ++ "/train.csv"

/-- The row cap applied to one split (data_loader.py lines 210-213): if
the split is longer than the limit, keep the first limit rows via
select(range(limit)), otherwise leave it alone. -/
def capSplit (n : Nat) (l : List Record) : List Record :=
  if n < l.length then l.take n else l

/-- The fast-limit step of load_dataset_any: with a configured limit the
cap is applied to each split independently; with no limit nothing
happens (the hasattr and is-not-None guard). -/
def applyFastLimit : Option Nat → FinalDS → FinalDS
  | none, d => d
  | some n, d => FinalDS.mk (capSplit n d.train) (capSplit n d.test)

/-- The per-record cleaning map of load_dataset_any (lines 217-219):
read the configured text field with empty-string default, clean it, and
store it under the text column. -/
def mapClean (field : String) (r : Record) : Record :=
  recSet r ("text") (PyVal.vStr (clean_text_py (recGet r field (PyVal.vStr ("")))))

/-- The tail of load_dataset_any after a dataset dictionary is in hand
(lines 200-225): ensure a test split exists by splitting train with the
configured ratio and seed when absent, apply the fast limit to each
split, then map the cleaning function over each split. -/
def postLoad (cfg : AppCfg) (ds : DSDict) : FinalDS :=
  let f :=
    match ds.test with
    | some te => FinalDS.mk ds.train te
    | none =>
      let p := hfTrainTestSplit ds.train (cfg.data.split_ratio.getD 1 0) cfg.seed
      FinalDS.mk p.1 p.2
  let f2 := applyFastLimit cfg.data.fast_limit f
  FinalDS.mk (f2.train.map (mapClean cfg.data.text_field)) (f2.test.map (mapClean cfg.data.text_field))

/-- load_dataset_any (data_loader.py lines 152-225): dispatch on the
source name; remote failures after the whole fallback chain degrade to
the synthetic dataset, as do missing local files; an unknown source
raises ValueError; then the common post-processing. The ds-is-None check
of line 197 is unreachable because every non-raising branch assigns ds. -/
def load_dataset_any (cfg : AppCfg) (env : LoaderEnv) (st : RNG) : Except PyError FinalDS :=
  if cfg.data.source == "hf_remote" then
    match load_dataset_with_fallback cfg env.remote with
    | Except.ok d => Except.ok (postLoad cfg d)
    | Except.error _ => Except.ok (postLoad cfg (create_synthetic_dataset 1000 st).1)
  else if cfg.data.source == "local_json" then
    if env.fileExists (jsonPath cfg) then
      Except.ok (postLoad cfg (DSDict.mk env.loadJson none))
    else Except.ok (postLoad cfg (create_synthetic_dataset 1000 st).1)
  else if cfg.data.source == "local_parquet" then
    if env.fileExists (parquetPath cfg) then
      Except.ok (postLoad cfg (DSDict.mk env.loadParquet none))
    else Except.ok (postLoad cfg (create_synthetic_dataset 1000 st).1)
  else if cfg.data.source == "csv" then
    if env.fileExists (csvPath cfg) then
      Except.ok (postLoad cfg (DSDict.mk env.loadCsv none))
    else Except.ok (postLoad cfg (create_synthetic_dataset 1000 st).1)
  else if cfg.data.source == "synthetic" then
    Except.ok (postLoad cfg (create_synthetic_dataset 1000 st).1)
  else Except.error (PyError.valueError ("Unknown data source: " ++ cfg.data.source))

/-!
Canonical-output predicates for the Normalizer and the lemma layer
establishing them for every cleanChars output.
-/

/-- Characters that may appear in a cleaned string: lowercase ASCII
letters, digits, the space, and the six retained punctuation marks. -/
def allowedOutChar (c : Char) : Bool :=
  (97 ≤ c.toNat && c.toNat ≤ 122) || (48 ≤ c.toNat && c.toNat ≤ 57) || c.toNat == 32 ||
  c.toNat == 46 || c.toNat == 44 || c.toNat == 33 || c.toNat == 63 ||
  c.toNat == 39 || c.toNat == 45

/-- No two adjacent whitespace characters. -/
def noTwoWS : List Char → Bool
  | [] => true
  | [_] => true
  | a :: b :: t => !(pyWS a && pyWS b) && noTwoWS (b :: t)

/-- The first character, if any, is not whitespace. -/
def headNotWS (l : List Char) : Bool :=
  match l.head? with
  | some d => !pyWS d
  | none => true

/-- The last character, if any, is not whitespace. -/
def lastNotWS (l : List Char) : Bool :=
  match l.getLast? with
  | some d => !pyWS d
  | none => true

theorem char_toNat_ofNat (m : Nat) (h : m < 55296) : (Char.ofNat m).toNat = m := by
  have hv : Nat.isValidChar m := Or.inl h
  simp [Char.ofNat, hv, Char.ofNatAux, Char.toNat, UInt32.toNat]

theorem char_eq_of_toNat (c d : Char) (h : c.toNat = d.toNat) : c = d := by
  apply Char.eq_of_val_eq
  apply UInt32.eq_of_toBitVec_eq
  apply BitVec.eq_of_toNat_eq
  exact h

theorem pyWS_iff (c : Char) : pyWS c = true ↔
    (9 ≤ c.toNat ∧ c.toNat ≤ 13) ∨ c.toNat = 32 ∨ (28 ≤ c.toNat ∧ c.toNat ≤ 31) ∨
    c.toNat = 133 ∨ c.toNat = 160 ∨ c.toNat = 5760 ∨
    (8192 ≤ c.toNat ∧ c.toNat ≤ 8202) ∨ c.toNat = 8232 ∨ c.toNat = 8233 ∨
    c.toNat = 8239 ∨ c.toNat = 8287 ∨ c.toNat = 12288 := by
  simp [pyWS, Bool.or_eq_true, Bool.and_eq_true, decide_eq_true_eq]
  tauto

theorem keepChar_iff (c : Char) : keepChar c = true ↔
    (65 ≤ c.toNat ∧ c.toNat ≤ 90) ∨ (97 ≤ c.toNat ∧ c.toNat ≤ 122) ∨
    (48 ≤ c.toNat ∧ c.toNat ≤ 57) ∨ pyWS c = true ∨
    c.toNat = 46 ∨ c.toNat = 44 ∨ c.toNat = 33 ∨ c.toNat = 63 ∨
    c.toNat = 39 ∨ c.toNat = 45 := by
  simp [keepChar, Bool.or_eq_true, Bool.and_eq_true, decide_eq_true_eq]
  tauto

theorem allowedOutChar_iff (c : Char) : allowedOutChar c = true ↔
    (97 ≤ c.toNat ∧ c.toNat ≤ 122) ∨ (48 ≤ c.toNat ∧ c.toNat ≤ 57) ∨ c.toNat = 32 ∨
    c.toNat = 46 ∨ c.toNat = 44 ∨ c.toNat = 33 ∨ c.toNat = 63 ∨
    c.toNat = 39 ∨ c.toNat = 45 := by
  simp [allowedOutChar, Bool.or_eq_true, Bool.and_eq_true, decide_eq_true_eq]
  tauto

theorem allowed_keep (c : Char) (h : allowedOutChar c = true) : keepChar c = true := by
  rw [allowedOutChar_iff] at h
  rw [keepChar_iff, pyWS_iff]
  omega

theorem allowed_not_amp (c : Char) (h : allowedOutChar c = true) : c.toNat ≠ 38 := by
  rw [allowedOutChar_iff] at h
  omega

theorem allowed_not_lt (c : Char) (h : allowedOutChar c = true) : c.toNat ≠ 60 := by
  rw [allowedOutChar_iff] at h
  omega

theorem allowed_ws_space (c : Char) (h : allowedOutChar c = true) (hw : pyWS c = true) :
    c = Char.ofNat 32 := by
  apply char_eq_of_toNat
  rw [allowedOutChar_iff] at h
  rw [pyWS_iff] at hw
  have h32 : (Char.ofNat 32).toNat = 32 := by decide
  omega

theorem pyWS_lowerChar (c : Char) : pyWS (lowerChar c) = pyWS c := by
  unfold lowerChar
  by_cases h : 65 ≤ c.toNat ∧ c.toNat ≤ 90
  · have hc : (65 ≤ c.toNat && c.toNat ≤ 90) = true := by
      simp [Bool.and_eq_true, decide_eq_true_eq]
      omega
    rw [if_pos hc]
    have hval : (Char.ofNat (c.toNat + 32)).toNat = c.toNat + 32 :=
      char_toNat_ofNat _ (by omega)
    have e1 : pyWS (Char.ofNat (c.toNat + 32)) = false := by
      rw [Bool.eq_false_iff, Ne, pyWS_iff, hval]
      omega
    have e2 : pyWS c = false := by
      rw [Bool.eq_false_iff, Ne, pyWS_iff]
      omega
    rw [e1, e2]
  · have hc : (65 ≤ c.toNat && c.toNat ≤ 90) = false := by
      simp [Bool.and_eq_true, decide_eq_true_eq, Bool.and_eq_false_iff]
      omega
    rw [if_neg (by rw [hc]; exact Bool.false_ne_true)]

theorem allowedOut_lowerChar (c : Char) (hk : keepChar c = true) (hw : pyWS c = false) :
    allowedOutChar (lowerChar c) = true := by
  unfold lowerChar
  rw [keepChar_iff] at hk
  rw [hw] at hk
  by_cases h : 65 ≤ c.toNat ∧ c.toNat ≤ 90
  · have hc : (65 ≤ c.toNat && c.toNat ≤ 90) = true := by
      simp [Bool.and_eq_true, decide_eq_true_eq]
      omega
    rw [if_pos hc]
    have hval : (Char.ofNat (c.toNat + 32)).toNat = c.toNat + 32 :=
      char_toNat_ofNat _ (by omega)
    rw [allowedOutChar_iff, hval]
    omega
  · have hc : (65 ≤ c.toNat && c.toNat ≤ 90) = false := by
      simp [Bool.and_eq_true, decide_eq_true_eq, Bool.and_eq_false_iff]
      omega
    rw [if_neg (by rw [hc]; exact Bool.false_ne_true)]
    rw [allowedOutChar_iff]
    simp at hk
    omega

theorem lowerChar_id (c : Char) (h : allowedOutChar c = true) : lowerChar c = c := by
  unfold lowerChar
  rw [allowedOutChar_iff] at h
  have hc : (65 ≤ c.toNat && c.toNat ≤ 90) = false := by
    simp [Bool.and_eq_true, decide_eq_true_eq, Bool.and_eq_false_iff]
    omega
  rw [if_neg (by rw [hc]; exact Bool.false_ne_true)]

theorem keep_of_mem_nonascii (l : List Char) (c : Char) (h : c ∈ nonasciiSub l) :
    keepChar c = true := by
  unfold nonasciiSub at h
  rcases List.mem_map.1 h with ⟨x, _, hx⟩
  by_cases hk : keepChar x = true
  · rw [if_pos hk] at hx
    rw [← hx]
    exact hk
  · rw [if_neg hk] at hx
    rw [← hx]
    decide

theorem noTwoWS_tail (a : Char) (l : List Char) (h : noTwoWS (a :: l) = true) :
    noTwoWS l = true := by
  cases l with
  | nil => rfl
  | cons b t =>
    unfold noTwoWS at h
    exact (Bool.and_eq_true_iff.1 h).2

theorem noTwoWS_cons (a : Char) (l : List Char) (ha : pyWS a = false)
    (h : noTwoWS l = true) : noTwoWS (a :: l) = true := by
  cases l with
  | nil => rfl
  | cons b t =>
    unfold noTwoWS
    rw [Bool.and_eq_true_iff]
    exact ⟨by rw [ha]; rfl, h⟩

theorem noTwoWS_cons_head (a : Char) (l : List Char) (hl : headNotWS l = true)
    (h : noTwoWS l = true) : noTwoWS (a :: l) = true := by
  cases l with
  | nil => rfl
  | cons b t =>
    unfold noTwoWS
    rw [Bool.and_eq_true_iff]
    refine ⟨?_, h⟩
    unfold headNotWS at hl
    simp only [List.head?_cons] at hl
    have hb : pyWS b = false := by
      cases hpb : pyWS b
      · rfl
      · rw [hpb] at hl
        cases hl
    simp [hb]

theorem headNotWS_dropWhile (l : List Char) : headNotWS (l.dropWhile pyWS) = true := by
  induction l with
  | nil => rfl
  | cons a t ih =>
    by_cases ha : pyWS a = true
    · rw [List.dropWhile_cons_of_pos ha]
      exact ih
    · rw [List.dropWhile_cons_of_neg (by rw [Bool.not_eq_true] at ha ⊢; exact ha)]
      unfold headNotWS
      simp only [List.head?_cons]
      rw [Bool.not_eq_true] at ha
      rw [ha]
      rfl

theorem mem_dropWhile (p : Char → Bool) (l : List Char) (c : Char)
    (h : c ∈ l.dropWhile p) : c ∈ l :=
  (List.dropWhile_sublist p).mem h

theorem noTwoWS_dropWhile (p : Char → Bool) (l : List Char) (h : noTwoWS l = true) :
    noTwoWS (l.dropWhile p) = true := by
  induction l with
  | nil => rfl
  | cons a t ih =>
    by_cases hp : p a = true
    · rw [List.dropWhile_cons_of_pos hp]
      exact ih (noTwoWS_tail a t h)
    · rw [List.dropWhile_cons_of_neg (by rw [Bool.not_eq_true] at hp ⊢; exact hp)]
      exact h

theorem headNotWS_collapseGo (f : Nat) (l : List Char) (h : headNotWS l = true) :
    headNotWS (collapseGo f l) = true := by
  cases f with
  | zero => exact h
  | succ g =>
    cases l with
    | nil => rfl
    | cons c rest =>
      unfold headNotWS at h
      simp only [List.head?_cons] at h
      have hc : pyWS c = false := by
        cases hpc : pyWS c
        · rfl
        · rw [hpc] at h
          cases h
      unfold collapseGo
      rw [if_neg (by rw [hc]; exact Bool.false_ne_true)]
      unfold headNotWS
      simp only [List.head?_cons]
      rw [hc]
      rfl

theorem mem_collapseGo (f : Nat) (l : List Char) (c : Char) (hf : l.length ≤ f)
    (h : c ∈ collapseGo f l) : c = Char.ofNat 32 ∨ (c ∈ l ∧ pyWS c = false) := by
  induction f generalizing l with
  | zero =>
    rw [Nat.le_zero, List.length_eq_zero] at hf
    subst hf
    cases h
  | succ g ih =>
    cases l with
    | nil => cases h
    | cons a rest =>
      unfold collapseGo at h
      by_cases ha : pyWS a = true
      · rw [if_pos ha] at h
        rcases List.mem_cons.1 h with h1 | h2
        · exact Or.inl h1
        · have hlen : (rest.dropWhile pyWS).length ≤ g := by
            have := (List.dropWhile_sublist (l := rest) pyWS).length_le
            simp only [List.length_cons] at hf
            omega
          rcases ih (rest.dropWhile pyWS) hlen h2 with h3 | ⟨h4, h5⟩
          · exact Or.inl h3
          · exact Or.inr ⟨List.mem_cons_of_mem a (mem_dropWhile pyWS rest c h4), h5⟩
      · rw [Bool.not_eq_true] at ha
        rw [if_neg (by rw [ha]; exact Bool.false_ne_true)] at h
        rcases List.mem_cons.1 h with h1 | h2
        · subst h1
          exact Or.inr ⟨List.mem_cons_self c rest, ha⟩
        · have hlen : rest.length ≤ g := by
            simp only [List.length_cons] at hf
            omega
          rcases ih rest hlen h2 with h3 | ⟨h4, h5⟩
          · exact Or.inl h3
          · exact Or.inr ⟨List.mem_cons_of_mem a h4, h5⟩

theorem noTwoWS_collapseGo (f : Nat) (l : List Char) (hf : l.length ≤ f) :
    noTwoWS (collapseGo f l) = true := by
  induction f generalizing l with
  | zero =>
    rw [Nat.le_zero, List.length_eq_zero] at hf
    subst hf
    rfl
  | succ g ih =>
    cases l with
    | nil => rfl
    | cons a rest =>
      unfold collapseGo
      simp only [List.length_cons] at hf
      by_cases ha : pyWS a = true
      · rw [if_pos ha]
        have hlen : (rest.dropWhile pyWS).length ≤ g := by
          have := (List.dropWhile_sublist (l := rest) pyWS).length_le
          omega
        apply noTwoWS_cons_head
        · exact headNotWS_collapseGo g _ (headNotWS_dropWhile rest)
        · exact ih _ hlen
      · rw [Bool.not_eq_true] at ha
        rw [if_neg (by rw [ha]; exact Bool.false_ne_true)]
        exact noTwoWS_cons a _ ha (ih rest (by omega))

theorem mem_dropTrailWS (l : List Char) (c : Char) (h : c ∈ dropTrailWS l) : c ∈ l := by
  induction l with
  | nil => cases h
  | cons a t ih =>
    unfold dropTrailWS at h
    cases hd : dropTrailWS t with
    | nil =>
      rw [hd] at h
      by_cases ha : pyWS a = true
      · rw [if_pos ha] at h
        cases h
      · rw [if_neg ha] at h
        rcases List.mem_cons.1 h with h1 | h2
        · subst h1
          exact List.mem_cons_self c t
        · cases h2
    | cons b r =>
      rw [hd] at h
      rcases List.mem_cons.1 h with h1 | h2
      · subst h1
        exact List.mem_cons_self c t
      · exact List.mem_cons_of_mem a (ih (by rw [hd]; exact h2))

theorem head_dropTrailWS (l : List Char) (c : Char)
    (h : (dropTrailWS l).head? = some c) : l.head? = some c := by
  cases l with
  | nil => cases h
  | cons a t =>
    unfold dropTrailWS at h
    cases hd : dropTrailWS t with
    | nil =>
      rw [hd] at h
      by_cases ha : pyWS a = true
      · rw [if_pos ha] at h
        cases h
      · rw [if_neg ha] at h
        simp only [List.head?_cons] at h ⊢
        exact h
    | cons b r =>
      rw [hd] at h
      simp only [List.head?_cons] at h ⊢
      exact h

theorem headNotWS_dropTrailWS (l : List Char) (h : headNotWS l = true) :
    headNotWS (dropTrailWS l) = true := by
  unfold headNotWS at h ⊢
  cases hd : (dropTrailWS l).head? with
  | none => rfl
  | some c =>
    rw [head_dropTrailWS l c hd] at h
    exact h

theorem lastNotWS_dropTrailWS (l : List Char) : lastNotWS (dropTrailWS l) = true := by
  induction l with
  | nil => rfl
  | cons a t ih =>
    unfold dropTrailWS
    cases hd : dropTrailWS t with
    | nil =>
      by_cases ha : pyWS a = true
      · rw [if_pos ha]
        rfl
      · rw [if_neg ha]
        unfold lastNotWS
        simp only [List.getLast?_singleton]
        rw [Bool.not_eq_true] at ha
        rw [ha]
        rfl
    | cons b r =>
      rw [hd] at ih
      unfold lastNotWS at ih ⊢
      rw [List.getLast?_cons_cons]
      exact ih

theorem noTwoWS_dropTrailWS (l : List Char) (h : noTwoWS l = true) :
    noTwoWS (dropTrailWS l) = true := by
  induction l with
  | nil => rfl
  | cons a t ih =>
    unfold dropTrailWS
    cases hd : dropTrailWS t with
    | nil =>
      by_cases ha : pyWS a = true
      · rw [if_pos ha]
        rfl
      · rw [if_neg ha]
        rfl
    | cons b r =>
      have ht : noTwoWS (b :: r) = true := by
        rw [← hd]
        exact ih (noTwoWS_tail a t h)
      have hb : t.head? = some b := head_dropTrailWS t b (by rw [hd]; rfl)
      cases t with
      | nil => cases hb
      | cons x u =>
        simp only [List.head?_cons, Option.some_inj] at hb
        subst hb
        unfold noTwoWS at h ⊢
        rw [Bool.and_eq_true_iff] at h ⊢
        exact ⟨h.1, ht⟩

theorem headNotWS_map_lower (l : List Char) (h : headNotWS l = true) :
    headNotWS (l.map lowerChar) = true := by
  unfold headNotWS at h ⊢
  rw [List.head?_map]
  cases hl : l.head? with
  | none => rfl
  | some c =>
    rw [hl] at h
    simp only [Option.map]
    rw [pyWS_lowerChar]
    exact h

theorem lastNotWS_map_lower (l : List Char) (h : lastNotWS l = true) :
    lastNotWS (l.map lowerChar) = true := by
  unfold lastNotWS at h ⊢
  rw [List.getLast?_map]
  cases hl : l.getLast? with
  | none => rfl
  | some c =>
    rw [hl] at h
    simp only [Option.map]
    rw [pyWS_lowerChar]
    exact h

theorem noTwoWS_map_lower (l : List Char) (h : noTwoWS l = true) :
    noTwoWS (l.map lowerChar) = true := by
  induction l with
  | nil => rfl
  | cons a t ih =>
    cases t with
    | nil => rfl
    | cons b u =>
      unfold noTwoWS at h ⊢
      rw [Bool.and_eq_true_iff] at h
      simp only [List.map_cons]
      rw [Bool.and_eq_true_iff]
      constructor
      · rw [pyWS_lowerChar, pyWS_lowerChar]
        exact h.1
      · have := ih h.2
        simp only [List.map_cons] at this
        exact this

theorem cleanChars_allowed (l : List Char) (c : Char) (h : c ∈ cleanChars l) :
    allowedOutChar c = true := by
  unfold cleanChars lowerAll at h
  rcases List.mem_map.1 h with ⟨x, hx, hlc⟩
  unfold stripWS at hx
  have hx2 : x ∈ collapseWS (nonasciiSub (urlSub (tagSub (html_unescape l)))) :=
    mem_dropWhile pyWS _ x (mem_dropTrailWS _ x hx)
  unfold collapseWS at hx2
  rcases mem_collapseGo _ _ x (Nat.le_refl _) hx2 with h32 | ⟨hmem, hws⟩
  · subst h32
    rw [← hlc]
    decide
  · rw [← hlc]
    exact allowedOut_lowerChar x (keep_of_mem_nonascii _ x hmem) hws

theorem cleanChars_noTwoWS (l : List Char) : noTwoWS (cleanChars l) = true := by
  unfold cleanChars lowerAll stripWS collapseWS
  apply noTwoWS_map_lower
  apply noTwoWS_dropTrailWS
  apply noTwoWS_dropWhile
  exact noTwoWS_collapseGo _ _ (Nat.le_refl _)

theorem cleanChars_headNotWS (l : List Char) : headNotWS (cleanChars l) = true := by
  unfold cleanChars lowerAll stripWS
  apply headNotWS_map_lower
  apply headNotWS_dropTrailWS
  exact headNotWS_dropWhile _

theorem cleanChars_lastNotWS (l : List Char) : lastNotWS (cleanChars l) = true := by
  unfold cleanChars lowerAll stripWS
  apply lastNotWS_map_lower
  exact lastNotWS_dropTrailWS _

/-!
Identity lemmas: each cleaning stage fixes a string that already has the
canonical shape, except the URL stage, which is exactly where idempotence
can fail.
-/

theorem unescapeGo_id (l : List Char) (h : ∀ c ∈ l, c.toNat ≠ 38) (f : Nat) :
    unescapeGo f l = l := by
  induction f generalizing l with
  | zero => rfl
  | succ g ih =>
    cases l with
    | nil => rfl
    | cons a rest =>
      unfold unescapeGo
      have ha : (a.toNat == 38) = false := by
        have := h a (List.mem_cons_self a rest)
        simp [this]
      rw [if_neg (by rw [ha]; exact Bool.false_ne_true)]
      rw [ih rest (fun c hc => h c (List.mem_cons_of_mem a hc))]

theorem tagGo_id (l : List Char) (h : ∀ c ∈ l, c.toNat ≠ 60) (f : Nat) :
    tagGo f l = l := by
  induction f generalizing l with
  | zero => rfl
  | succ g ih =>
    cases l with
    | nil => rfl
    | cons a rest =>
      unfold tagGo
      have ha : (a.toNat == 60) = false := by
        have := h a (List.mem_cons_self a rest)
        simp [this]
      rw [if_neg (by rw [ha]; exact Bool.false_ne_true)]
      rw [ih rest (fun c hc => h c (List.mem_cons_of_mem a hc))]

theorem map_id_on (f : Char → Char) (l : List Char) (h : ∀ c ∈ l, f c = c) :
    l.map f = l := by
  induction l with
  | nil => rfl
  | cons a t ih =>
    simp only [List.map_cons]
    rw [h a (List.mem_cons_self a t), ih (fun c hc => h c (List.mem_cons_of_mem a hc))]

theorem nonasciiSub_id (l : List Char) (h : ∀ c ∈ l, keepChar c = true) :
    nonasciiSub l = l := by
  unfold nonasciiSub
  apply map_id_on
  intro c hc
  rw [if_pos (h c hc)]

theorem dropWhile_pyWS_id (l : List Char) (h : headNotWS l = true) :
    l.dropWhile pyWS = l := by
  cases l with
  | nil => rfl
  | cons a t =>
    unfold headNotWS at h
    simp only [List.head?_cons] at h
    have ha : pyWS a = false := by
      cases hpa : pyWS a
      · rfl
      · rw [hpa] at h
        cases h
    rw [List.dropWhile_cons_of_neg (by rw [ha]; exact Bool.false_ne_true)]

theorem dropTrailWS_id (l : List Char) (h : lastNotWS l = true) : dropTrailWS l = l := by
  induction l with
  | nil => rfl
  | cons a t ih =>
    unfold dropTrailWS
    cases t with
    | nil =>
      unfold lastNotWS at h
      simp only [List.getLast?_singleton] at h
      have ha : pyWS a = false := by
        cases hpa : pyWS a
        · rfl
        · rw [hpa] at h
          cases h
      simp [dropTrailWS, ha]
    | cons b u =>
      have ht : lastNotWS (b :: u) = true := by
        unfold lastNotWS at h ⊢
        rw [List.getLast?_cons_cons] at h
        exact h
      rw [ih ht]

theorem lowerAll_id (l : List Char) (h : ∀ c ∈ l, allowedOutChar c = true) :
    lowerAll l = l := by
  unfold lowerAll
  apply map_id_on
  intro c hc
  exact lowerChar_id c (h c hc)

theorem collapseGo_id (l : List Char) (hsp : ∀ c ∈ l, pyWS c = true → c = Char.ofNat 32)
    (h2 : noTwoWS l = true) (f : Nat) : collapseGo f l = l := by
  induction f generalizing l with
  | zero => rfl
  | succ g ih =>
    cases l with
    | nil => rfl
    | cons a rest =>
      unfold collapseGo
      by_cases ha : pyWS a = true
      · rw [if_pos ha]
        have hrest : rest.dropWhile pyWS = rest := by
          apply dropWhile_pyWS_id
          cases rest with
          | nil => rfl
          | cons b u =>
            unfold noTwoWS at h2
            rw [Bool.and_eq_true_iff] at h2
            have hb : pyWS b = false := by
              cases hpb : pyWS b
              · rfl
              · have := h2.1
                rw [ha, hpb] at this
                cases this
            unfold headNotWS
            simp only [List.head?_cons]
            rw [hb]
            rfl
        rw [hrest]
        rw [ih rest (fun c hc hw => hsp c (List.mem_cons_of_mem a hc) hw) (noTwoWS_tail a rest h2)]
        rw [hsp a (List.mem_cons_self a rest) ha]
      · rw [Bool.not_eq_true] at ha
        rw [if_neg (by rw [ha]; exact Bool.false_ne_true)]
        rw [ih rest (fun c hc hw => hsp c (List.mem_cons_of_mem a hc) hw) (noTwoWS_tail a rest h2)]

theorem cleanChars_fix (l : List Char) (h : urlSub (cleanChars l) = cleanChars l) :
    cleanChars (cleanChars l) = cleanChars l := by
  have hall : ∀ c ∈ cleanChars l, allowedOutChar c = true := cleanChars_allowed l
  have h1 : html_unescape (cleanChars l) = cleanChars l :=
    unescapeGo_id _ (fun c hc => allowed_not_amp c (hall c hc)) _
  have h2 : tagSub (cleanChars l) = cleanChars l :=
    tagGo_id _ (fun c hc => allowed_not_lt c (hall c hc)) _
  have h4 : nonasciiSub (cleanChars l) = cleanChars l :=
    nonasciiSub_id _ (fun c hc => allowed_keep c (hall c hc))
  have h5 : collapseWS (cleanChars l) = cleanChars l :=
    collapseGo_id _ (fun c hc hw => allowed_ws_space c (hall c hc) hw)
      (cleanChars_noTwoWS l) _
  have h6 : stripWS (cleanChars l) = cleanChars l := by
    unfold stripWS
    rw [dropWhile_pyWS_id _ (cleanChars_headNotWS l)]
    exact dropTrailWS_id _ (cleanChars_lastNotWS l)
  have h7 : lowerAll (cleanChars l) = cleanChars l :=
    lowerAll_id _ (fun c hc => hall c hc)
  calc cleanChars (cleanChars l)
      = lowerAll (stripWS (collapseWS (nonasciiSub (urlSub (tagSub (html_unescape (cleanChars l))))))) := rfl
    _ = cleanChars l := by rw [h1, h2, h, h4, h5, h6, h7]

/-!
Claim theorems for the Normalizer.
-/

/-- C1 counterexample: clean_text is not idempotent. On the input
consisting of the five uppercase letters H T T P X, one application
yields the lowercase httpx, and because lowercasing happens after the
case-sensitive URL pass, a second application now sees a URL-shaped
token and erases it, giving the empty string. -/
theorem clean_text_not_idempotent_on_uppercase_url :
    clean_text ("HTTPX") = ("httpx" : String) ∧
    clean_text (clean_text ("HTTPX")) = ("" : String) ∧
    clean_text (clean_text ("HTTPX")) ≠ clean_text ("HTTPX") := by
  refine ⟨by decide, by decide, by decide⟩

/-- C1 amended: clean_text is idempotent on every input whose cleaned
form is left unchanged by the URL pass (in particular on any cleaned
text with no lowercase URL-shaped token); only the case-sensitive URL
stage, run before lowercasing, can break idempotence. -/
theorem clean_text_idempotent_when_no_url_token (s : String)
    (h : urlSub ((clean_text s).data) = (clean_text s).data) :
    clean_text (clean_text s) = clean_text s := by
  have hd : (clean_text s).data = cleanChars s.data := rfl
  rw [hd] at h
  show String.mk (cleanChars ((clean_text s).data)) = clean_text s
  rw [hd, cleanChars_fix s.data h]
  rfl

/-- C1 witness: a concrete input satisfying the no-URL-token hypothesis
on which idempotence holds. -/
theorem clean_text_idempotent_witness :
    clean_text (clean_text ("Hello, <b>World</b>!")) = clean_text ("Hello, <b>World</b>!") :=
  clean_text_idempotent_when_no_url_token ("Hello, <b>World</b>!") (by decide)

/-- C2 counterexample: on the spec example input the Normalizer does not
return the expected string of the claim, because the uppercase URL
survives the case-sensitive URL pass. -/
theorem clean_text_example_not_visit_save :
    clean_text ("Visit <b>HTTP://Example.com</b> &amp; save!") ≠ ("visit save!" : String) := by
  decide

/-- C2 amended: on the input of the claim the Normalizer returns exactly
the text visit http example.com save! - the tags are stripped, the
entity is decoded and the ampersand then dropped, the exclamation mark
is retained and everything is lowercased, but the URL is not stripped:
the URL pattern is lowercase-literal and runs before lowercasing, so the
uppercase URL merely loses its colon and slashes to the character
filter. -/
theorem clean_text_example_value :
    clean_text ("Visit <b>HTTP://Example.com</b> &amp; save!")
      = ("visit http example.com save!" : String) := by
  decide

/-- C3: clean_text never fails, and on every non-string input (None,
numbers, booleans) it returns the empty string, per the isinstance guard. -/
theorem clean_text_py_nonstring_empty (v : PyVal) (h : ∀ s : String, v ≠ PyVal.vStr s) :
    clean_text_py v = ("" : String) := by
  cases v with
  | vStr s => exact absurd rfl (h s)
  | vInt n => rfl
  | vBool b => rfl
  | vNone => rfl

/-- C3 witness: the guard at a concrete non-string input. -/
theorem clean_text_py_nonstring_empty_witness :
    clean_text_py (PyVal.vInt 3) = ("" : String) :=
  clean_text_py_nonstring_empty (PyVal.vInt 3) (fun _ h => PyVal.noConfusion h)

/-- C8: the per-record normalization map commutes with truncation as to
which rows survive and their contents: cleaning then taking the first n
equals taking the first n then cleaning, both for the batch cleaning
function of preprocess.py and for the record-level cleaning map of
load_dataset_any. -/
theorem clean_commutes_with_truncation (texts : List String) (n : Nat)
    (rows : List Record) (field : String) :
    batch_clean_text (texts.take n) = (batch_clean_text texts).take n ∧
    (rows.take n).map (mapClean field) = (rows.map (mapClean field)).take n := by
  constructor
  · unfold batch_clean_text
    exact List.map_take clean_text texts n
  · exact List.map_take (mapClean field) rows n

/-- C10: every output of clean_text consists only of lowercase ASCII
letters, digits, spaces and the six retained punctuation marks, with no
leading or trailing whitespace and no two consecutive whitespace
characters. -/
theorem clean_text_output_canonical (s : String) :
    (clean_text s).data.all allowedOutChar = true ∧
    noTwoWS ((clean_text s).data) = true ∧
    headNotWS ((clean_text s).data) = true ∧
    lastNotWS ((clean_text s).data) = true := by
  have hd : (clean_text s).data = cleanChars s.data := rfl
  refine ⟨?_, ?_, ?_, ?_⟩
  · rw [List.all_eq_true]
    intro c hc
    rw [hd] at hc
    exact cleanChars_allowed s.data c hc
  · rw [hd]
    exact cleanChars_noTwoWS s.data
  · rw [hd]
    exact cleanChars_headNotWS s.data
  · rw [hd]
    exact cleanChars_lastNotWS s.data

/-!
Length and shape lemmas for the dataset assembler.
-/

theorem synthPairs_length (draws : Nat → Nat) (n : Nat) :
    ∀ (i pos : Nat), (synthPairs draws i n pos).length = n := by
  induction n with
  | zero => intro i pos; rfl
  | succ m ih =>
    intro i pos
    unfold synthPairs
    simp only [List.length_cons]
    rw [ih (i + 1) (pos + 2)]

theorem synthRows_length (ps : List (String × String)) :
    ∀ i : Nat, (synthRows i ps).length = ps.length := by
  induction ps with
  | nil => intro i; rfl
  | cons p t ih =>
    intro i
    unfold synthRows
    simp only [List.length_cons]
    rw [ih (i + 1)]

theorem hfShuffle_length (seed : Nat) (l : List Record) :
    (hfShuffle seed l).length = l.length := by
  unfold hfShuffle
  simp only [List.length_append, List.length_drop, List.length_take]
  by_cases h : l.length = 0
  · simp [h]
  · have hne : (l.length == 0) = false := by
      simp [h]
    rw [if_neg (by rw [hne]; exact Bool.false_ne_true)]
    have : seed % l.length < l.length := Nat.mod_lt seed (Nat.pos_of_ne_zero h)
    omega

theorem hfTrainTestSplit_total (l : List Record) (q : ℚ) (seed : Nat) :
    (hfTrainTestSplit l q seed).1.length + (hfTrainTestSplit l q seed).2.length = l.length := by
  unfold hfTrainTestSplit
  simp only [List.length_drop, List.length_take]
  have := hfShuffle_length seed l
  omega

theorem create_synthetic_dataset_eq (n : Nat) (st : RNG) :
    (create_synthetic_dataset n st).1 =
      DSDict.mk (hfTrainTestSplit (synthRows 0 (synthPairs st.draws 0 n st.pos)) (mkRat 1 5) 42).1
        (some (hfTrainTestSplit (synthRows 0 (synthPairs st.draws 0 n st.pos)) (mkRat 1 5) 42).2) :=
  rfl

theorem create_synthetic_total (n : Nat) (st : RNG) :
    (hfTrainTestSplit (synthRows 0 (synthPairs st.draws 0 n st.pos)) (mkRat 1 5) 42).1.length +
    (hfTrainTestSplit (synthRows 0 (synthPairs st.draws 0 n st.pos)) (mkRat 1 5) 42).2.length = n := by
  rw [hfTrainTestSplit_total]
  rw [synthRows_length, synthPairs_length]

theorem postLoad_some_none_lengths (cfg : AppCfg) (tr te : List Record)
    (hlim : cfg.data.fast_limit = none) :
    (postLoad cfg (DSDict.mk tr (some te))).train.length +
    (postLoad cfg (DSDict.mk tr (some te))).test.length = tr.length + te.length := by
  unfold postLoad
  rw [hlim]
  simp [applyFastLimit, List.length_map]

theorem capSplit_zero (l : List Record) : capSplit 0 l = [] := by
  unfold capSplit
  by_cases h : 0 < l.length
  · rw [if_pos h]
    exact List.take_zero l
  · rw [if_neg h]
    have : l.length = 0 := by omega
    exact List.length_eq_zero.1 this

theorem postLoad_limit_zero (cfg : AppCfg) (tr te : List Record)
    (hlim : cfg.data.fast_limit = some 0) :
    postLoad cfg (DSDict.mk tr (some te)) = FinalDS.mk [] [] := by
  unfold postLoad
  rw [hlim]
  simp [applyFastLimit, capSplit_zero]

theorem load_any_local_missing (cfg : AppCfg) (env : LoaderEnv) (st : RNG)
    (h : (cfg.data.source = "local_json" ∧ env.fileExists (jsonPath cfg) = false) ∨
         (cfg.data.source = "local_parquet" ∧ env.fileExists (parquetPath cfg) = false) ∨
         (cfg.data.source = "csv" ∧ env.fileExists (csvPath cfg) = false)) :
    load_dataset_any cfg env st = Except.ok (postLoad cfg (create_synthetic_dataset 1000 st).1) := by
  rcases h with ⟨hs, hf⟩ | ⟨hs, hf⟩ | ⟨hs, hf⟩ <;>
    simp [load_dataset_any, hs, hf]

/-!
Claim theorems for the dataset assembler.
-/

/-- C4: the remote fallback chain equals its specification: the four
strategies are consulted in order, the first success is the result, and
when all four fail the function fails with the fatal error naming the
dataset and no synthetic data is produced inside it; the synthetic
substitution happens one layer up, in load_dataset_any, as the second
conjunct shows for an arbitrary configuration whose remote strategies
all fail. -/
theorem load_dataset_with_fallback_first_success_spec :
    (∀ (cfg : AppCfg) (env : RemoteEnv),
      load_dataset_with_fallback cfg env = fallbackSpec cfg env) ∧
    (∀ (hd tf dd : String) (sr : List ℚ) (fl : Option Nat) (mp sd : Nat)
       (fe : String → Bool) (lj lp lc : List Record)
       (ts : Except String (List Record)) (m1 m2 m3 m4 : String) (st : RNG),
      load_dataset_any
        (AppCfg.mk (DataCfg.mk ("hf_remote") hd sr tf fl mp) (PathsCfg.mk dd) sd)
        (LoaderEnv.mk fe lj lp lc
          (RemoteEnv.mk (Except.error m1) (Except.error m2) (Except.error m3)
            (Except.error m4) ts))
        st
      = Except.ok
          (postLoad (AppCfg.mk (DataCfg.mk ("hf_remote") hd sr tf fl mp) (PathsCfg.mk dd) sd)
            (create_synthetic_dataset 1000 st).1)) := by
  constructor
  · intro cfg env
    unfold load_dataset_with_fallback fallbackSpec
    cases env.normal <;> cases env.forceRedownload <;> cases env.ignoreVerif <;>
      cases hls : loadSplitsIndividually cfg env <;> simp [List.find?, hls]
  · intro hd tf dd sr fl mp sd fe lj lp lc ts m1 m2 m3 m4 st
    rfl

/-- C5 counterexample: with a configured fast row cap the claimed total
of 1000 fails; a missing local CSV with a cap of zero produces the empty
dataset, total zero, not 1000. -/
theorem load_dataset_any_capped_synthetic_not_1000 :
    load_dataset_any
      (AppCfg.mk (DataCfg.mk ("csv") ("any/ds") [mkRat 4 5, mkRat 1 5] ("text") (some 0) 4)
        (PathsCfg.mk ("data")) 42)
      (LoaderEnv.mk (fun _ => false) [] [] []
        (RemoteEnv.mk (Except.error ("")) (Except.error ("")) (Except.error (""))
          (Except.error ("")) (Except.error (""))))
      (RNG.mk id 0)
    = Except.ok (FinalDS.mk [] []) ∧
    (FinalDS.mk ([] : List Record) ([] : List Record)).train.length +
      (FinalDS.mk ([] : List Record) ([] : List Record)).test.length ≠ 1000 := by
  constructor
  · rw [load_any_local_missing _ _ _ (Or.inr (Or.inr ⟨rfl, rfl⟩))]
    rw [create_synthetic_dataset_eq]
    rw [postLoad_limit_zero _ _ _ rfl]
  · decide

/-- C5 amended: when a local file source (JSON, Parquet or CSV) is
configured, the file is absent and no fast row cap is configured,
load_dataset_any does not raise and returns the synthetic fallback whose
total record count across the two splits is exactly 1000. -/
theorem load_dataset_any_missing_local_file_synthetic_total
    (cfg : AppCfg) (env : LoaderEnv) (st : RNG)
    (hsrc : (cfg.data.source = "local_json" ∧ env.fileExists (jsonPath cfg) = false) ∨
            (cfg.data.source = "local_parquet" ∧ env.fileExists (parquetPath cfg) = false) ∨
            (cfg.data.source = "csv" ∧ env.fileExists (csvPath cfg) = false))
    (hlim : cfg.data.fast_limit = none) :
    ∃ d : FinalDS, load_dataset_any cfg env st = Except.ok d ∧
      d.train.length + d.test.length = 1000 := by
  refine ⟨postLoad cfg (create_synthetic_dataset 1000 st).1, load_any_local_missing cfg env st hsrc, ?_⟩
  rw [create_synthetic_dataset_eq]
  rw [postLoad_some_none_lengths cfg _ _ hlim]
  exact create_synthetic_total 1000 st

/-- C5 witness: the amended claim at a concrete missing-CSV
configuration. -/
theorem load_dataset_any_missing_local_file_witness :
    ∃ d : FinalDS,
      load_dataset_any
        (AppCfg.mk (DataCfg.mk ("csv") ("any/ds") [mkRat 4 5, mkRat 1 5] ("text") none 4)
          (PathsCfg.mk ("data")) 42)
        (LoaderEnv.mk (fun _ => false) [] [] []
          (RemoteEnv.mk (Except.error ("")) (Except.error ("")) (Except.error (""))
            (Except.error ("")) (Except.error (""))))
        (RNG.mk id 0)
      = Except.ok d ∧ d.train.length + d.test.length = 1000 :=
  load_dataset_any_missing_local_file_synthetic_total _ _ _
    (Or.inr (Or.inr ⟨rfl, rfl⟩)) rfl

/-- C7: the row cap with limit n keeps exactly the first n records in
order when the split is longer than n, is a no-op otherwise, is
characterized pointwise by position, and is applied to the two splits
independently; with no configured limit nothing is touched. -/
theorem fast_limit_cap_first_n (n : Nat) (l : List Record) (d : FinalDS) :
    (n < l.length → capSplit n l = l.take n) ∧
    (l.length ≤ n → capSplit n l = l) ∧
    (∀ i : Nat, (capSplit n l)[i]? = if i < n then l[i]? else none) ∧
    applyFastLimit (some n) d = FinalDS.mk (capSplit n d.train) (capSplit n d.test) ∧
    applyFastLimit none d = d := by
  refine ⟨?_, ?_, ?_, rfl, rfl⟩
  · intro h
    unfold capSplit
    rw [if_pos h]
  · intro h
    unfold capSplit
    rw [if_neg (by omega)]
  · intro i
    unfold capSplit
    by_cases h : n < l.length
    · rw [if_pos h]
      by_cases hi : i < n
      · rw [if_pos hi]
        exact List.getElem?_take_of_lt hi
      · rw [if_neg hi]
        apply List.getElem?_eq_none
        simp only [List.length_take]
        omega
    · rw [if_neg h]
      by_cases hi : i < n
      · rw [if_pos hi]
      · rw [if_neg hi]
        apply List.getElem?_eq_none
        omega

/-- C7 witness: the cap at a concrete two-row split, once with a smaller
limit and once with a larger one. -/
theorem fast_limit_cap_first_n_witness :
    capSplit 1 [[(("id" : String), PyVal.vInt 0)], [(("id" : String), PyVal.vInt 1)]]
      = [[(("id" : String), PyVal.vInt 0)], [(("id" : String), PyVal.vInt 1)]].take 1 ∧
    capSplit 3 [[(("id" : String), PyVal.vInt 0)], [(("id" : String), PyVal.vInt 1)]]
      = [[(("id" : String), PyVal.vInt 0)], [(("id" : String), PyVal.vInt 1)]] :=
  ⟨(fast_limit_cap_first_n 1 _ (FinalDS.mk [] [])).1 (by decide),
   (fast_limit_cap_first_n 3 _ (FinalDS.mk [] [])).2.1 (by decide)⟩

/-- C9: a source name outside the five configured ones makes
load_dataset_any raise the ValueError naming it at once, with no
fallback of any kind. -/
theorem load_dataset_any_unknown_source_valueerror
    (cfg : AppCfg) (env : LoaderEnv) (st : RNG)
    (h : ¬ cfg.data.source ∈ ["hf_remote", "local_json", "local_parquet", "csv", "synthetic"]) :
    load_dataset_any cfg env st
      = Except.error (PyError.valueError ("Unknown data source: " ++ cfg.data.source)) := by
  simp only [List.mem_cons, List.mem_singleton, not_or] at h
  obtain ⟨h1, h2, h3, h4, h5⟩ := h
  simp [load_dataset_any, h1, h2, h3, h4, h5]

/-- C9 witness: the unknown-source error at a concrete configuration. -/
theorem load_dataset_any_unknown_source_witness :
    load_dataset_any
      (AppCfg.mk (DataCfg.mk ("twitter_api") ("any/ds") [] ("text") none 4)
        (PathsCfg.mk ("data")) 42)
      (LoaderEnv.mk (fun _ => false) [] [] []
        (RemoteEnv.mk (Except.error ("")) (Except.error ("")) (Except.error (""))
          (Except.error ("")) (Except.error (""))))
      (RNG.mk id 0)
    = Except.error (PyError.valueError ("Unknown data source: twitter_api")) :=
  load_dataset_any_unknown_source_valueerror _ _ _ (by decide)

set_option maxRecDepth 8000 in
/-- C6: create_synthetic_dataset is not invocation-deterministic: two
successive calls, the second starting from the random-module state the
first left behind, give different datasets. On the draw stream that
returns its own position, the first record of the test split gets the
label positive in the first call and neutral in the second. -/
theorem create_synthetic_dataset_successive_calls_differ :
    (create_synthetic_dataset 1000 (RNG.mk id 0)).1
      ≠ (create_synthetic_dataset 1000 ((create_synthetic_dataset 1000 (RNG.mk id 0)).2)).1 := by
  intro h
  exact absurd
    (congrArg (fun d : DSDict =>
      Option.map (fun l => (List.head? l).map (fun r => recGet r ("label") PyVal.vNone)) d.test) h)
    (by decide)

